import Mathlib

/-!
Verification development for the prisma-strong-migrations core:
the SQL statement segmenter/classifier (src/core/sql-parser.ts) and the
rule-evaluation engine (RuleEngine).  TypeScript code is shallowly
embedded: strings are Lean `String`s (with the JavaScript string
methods `trim`, `toUpperCase`, `split`, `join`, `startsWith` embedded
as structurally-recursive functions over the character list),
exceptions become `Except`/`Option`, and the external grammar parser
of `sql-parser-cst` is modelled as an oracle `String → Option α` (an
exception thrown by it is `none`).
-/

namespace PSM

/-- The single-quote character `'` (written by code point to keep the
source free of quote literals). -/
def squote : Char := Char.ofNat 39

/-- The double-quote character `"` (written by code point). -/
def dquote : Char := Char.ofNat 34

/-- Embedding of JavaScript `String.prototype.trim`: drop whitespace
from both ends. -/
def jsTrim (s : String) : String :=
  ⟨((s.data.dropWhile Char.isWhitespace).reverse.dropWhile Char.isWhitespace).reverse⟩

/-- Embedding of JavaScript `String.prototype.toUpperCase` (the inputs
at hand are ASCII). -/
def jsToUpper (s : String) : String :=
  ⟨s.data.map Char.toUpper⟩

/-- Embedding of JavaScript `String.prototype.startsWith`: the
character sequence of `p` is a prefix of that of `s`. -/
def strStartsWith (s p : String) : Bool := p.data.isPrefixOf s.data

/-- Helper for `jsSplit`: scan the characters, cutting at each
separator occurrence. -/
def jsSplitAux (sep : Char) : List Char → String → List String
  | [], cur => [cur]
  | ch :: rest, cur =>
      if ch = sep then cur :: jsSplitAux sep rest "" else jsSplitAux sep rest (cur.push ch)

/-- Embedding of JavaScript `String.prototype.split` with a one-character
separator. -/
def jsSplit (s : String) (sep : Char) : List String := jsSplitAux sep s.data ""

/-- Embedding of JavaScript `Array.prototype.join` on strings. -/
def jsJoin (sep : String) : List String → String
  | [] => ""
  | [x] => x
  | x :: xs => x ++ sep ++ jsJoin sep xs

/-- Embedding of the `SQLStatement` interface (src/types/index.ts).
`ast?: any` is modelled as `Option α` for an abstract AST type `α`. -/
structure SQLStatement (α : Type) where
  type : String
  content : String
  startLine : Nat
  endLine : Nat
  ast : Option α
deriving DecidableEq, Repr

/-- Scanner state of `SQLParser.splitSQLStatements`: the source keeps
booleans `inString`/`inComment` plus `stringChar`/`commentType`; the
guards make the four combinations below the only reachable ones. -/
inductive SplitMode where
  | normal
  | lineComment
  | blockComment
  | inString (delim : Char)
deriving DecidableEq, Repr

/-- The character-scanning loop of `SQLParser.splitSQLStatements`
(src/core/sql-parser.ts, lines 83-140), one constructor case per
scanner state.  `prev` is `content[i-1]` (used by the string-closing
test `content[i - 1] !== '\\'`); `current` is the buffer being built;
`acc` holds the statements pushed so far.  The `*/` case consumes two
characters, matching the `i++` skip in the source; the case of the
empty list is the trailing `if (current.trim())` push. -/
def splitAux : SplitMode → Option Char → String → List String → List Char → List String
  | _, _, current, acc, [] =>
      if jsTrim current ≠ "" then acc ++ [current] else acc
  | .normal, _, current, acc, c :: rest =>
      if c = '-' ∧ rest.head? = some '-' then
        splitAux .lineComment (some c) (current.push c) acc rest
      else if c = '/' ∧ rest.head? = some '*' then
        splitAux .blockComment (some c) (current.push c) acc rest
      else if c = squote ∨ c = dquote then
        splitAux (.inString c) (some c) (current.push c) acc rest
      else if c = ';' then
        splitAux .normal (some c) "" (acc ++ [current.push c]) rest
      else
        splitAux .normal (some c) (current.push c) acc rest
  | .lineComment, _, current, acc, c :: rest =>
      if c = '\n' then
        splitAux .normal (some c) (current.push c) acc rest
      else
        splitAux .lineComment (some c) (current.push c) acc rest
  | .blockComment, _, current, acc, '*' :: '/' :: rest =>
      splitAux .normal (some '/') ((current.push '*').push '/') acc rest
  | .blockComment, _, current, acc, c :: rest =>
      splitAux .blockComment (some c) (current.push c) acc rest
  | .inString delim, prev, current, acc, c :: rest =>
      if c = delim ∧ prev ≠ some '\\' then
        splitAux .normal (some c) (current.push c) acc rest
      else
        splitAux (.inString delim) (some c) (current.push c) acc rest

/-- `SQLParser.splitSQLStatements`: split migration text at top-level
semicolons, leaving semicolons inside strings and comments alone. -/
def splitSQLStatements (content : String) : List String :=
  splitAux .normal none "" [] content.data

/-- `SQLParser.getStatementType` (src/core/sql-parser.ts, lines
150-167): trim, upper-case, then an ordered chain of prefix tests,
first match wins. -/
def getStatementType (statement : String) : String :=
  let trimmed := jsToUpper (jsTrim statement)
  if strStartsWith trimmed "CREATE TABLE" then "CREATE_TABLE"
  else if strStartsWith trimmed "ALTER TABLE" then "ALTER_TABLE"
  else if strStartsWith trimmed "DROP TABLE" then "DROP_TABLE"
  else if strStartsWith trimmed "CREATE INDEX" then "CREATE_INDEX"
  else if strStartsWith trimmed "DROP INDEX" then "DROP_INDEX"
  else if strStartsWith trimmed "INSERT" then "INSERT"
  else if strStartsWith trimmed "UPDATE" then "UPDATE"
  else if strStartsWith trimmed "DELETE" then "DELETE"
  else if strStartsWith trimmed "SELECT" then "SELECT"
  else if strStartsWith trimmed "CREATE" then "CREATE"
  else if strStartsWith trimmed "DROP" then "DROP"
  else if strStartsWith trimmed "ALTER" then "ALTER"
  else "UNKNOWN"

/-- `(rawStatement.match(/\n/g) || []).length`: the number of newline
characters in a string. -/
def countNewlines (s : String) : Nat := s.data.count '\n'

/-- The predicate of the `lines.filter` in `parseStatements` (lines
28-31): a line that is non-blank and is not a `--` or `/*` comment
line. -/
def isSQLLine (line : String) : Bool :=
  let lineTrimmed := jsTrim line
  lineTrimmed ≠ "" && !(strStartsWith lineTrimmed "--") && !(strStartsWith lineTrimmed "/*")

/-- The `for (const rawStatement of rawStatements)` loop of
`SQLParser.parseStatements` (lines 15-70), with `lineNumber` threaded
explicitly.  The external `parse` call and its `try/catch` are the
oracle `parseFn`: `some ast` is a successful parse, `none` the caught
exception, and in both branches the same `type`/`content`/`startLine`/
`endLine` are produced. -/
def parseAux {α : Type} (parseFn : String → Option α) : Nat → List String → List (SQLStatement α)
  | _, [] => []
  | lineNumber, rawStatement :: rest =>
      let n := countNewlines rawStatement
      let trimmed := jsTrim rawStatement
      if trimmed = "" then
        parseAux parseFn (lineNumber + n) rest
      else
        let sqlLines := (jsSplit trimmed '\n').filter isSQLLine
        if sqlLines.isEmpty then
          parseAux parseFn (lineNumber + n) rest
        else
          let sqlContent := jsTrim (jsJoin "\n" sqlLines)
          if sqlContent = "" then
            parseAux parseFn (lineNumber + n) rest
          else
            { type := getStatementType sqlContent
              content := sqlContent
              startLine := lineNumber
              endLine := lineNumber + n
              ast := parseFn sqlContent } :: parseAux parseFn (lineNumber + n) rest

/-- `SQLParser.parseStatements`: segment the migration text and emit a
typed, line-annotated statement for every span that is not blank and
not a pure comment block. -/
def parseStatements {α : Type} (parseFn : String → Option α) (content : String) : List (SQLStatement α) :=
  parseAux parseFn 1 (splitSQLStatements content)

/-- The `Severity` enumeration (src/types/index.ts). -/
inductive Severity where
  | error
  | warning
  | info
deriving DecidableEq, Repr

/-- The `RuleCategory` enumeration (src/types/index.ts). -/
inductive RuleCategory where
  | schemaSafety
  | performance
  | dataIntegrity
  | deploymentSafety
  | bestPractices
deriving DecidableEq, Repr

/-- The `Violation` interface (src/types/index.ts). -/
structure Violation where
  ruleId : String
  ruleName : String
  severity : Severity
  message : String
  line : Nat
  column : Option Nat
  suggestion : Option String
  autoFix : Option String
  category : RuleCategory
deriving DecidableEq, Repr

/-- The `Migration` interface (src/types/index.ts). -/
structure Migration (α : Type) where
  id : String
  filename : String
  content : String
  statements : List (SQLStatement α)

/-- The `Rule` interface (src/types/index.ts).  A `check` that throws
is modelled with `Except`: `Except.error` is a thrown exception,
`Except.ok` a normal return. -/
structure Rule (α : Type) where
  id : String
  name : String
  description : String
  severity : Severity
  category : RuleCategory
  check : SQLStatement α → Migration α → Except String (List Violation)
  recommendation : Option String
  autoFix : Option (SQLStatement α → String)
  enabled : Bool

/-- The `LintResult` interface (src/types/index.ts). -/
structure LintResult where
  violations : List Violation
  totalFiles : Nat
  totalViolations : Nat
  errorCount : Nat
  warningCount : Nat
  infoCount : Nat
deriving DecidableEq, Repr

/-- `RuleEngine.addRule`: `this.rules.push(rule)`. -/
def addRule {α : Type} (rules : List (Rule α)) (rule : Rule α) : List (Rule α) :=
  rules ++ [rule]

/-- `RuleEngine.removeRule`:
`this.rules = this.rules.filter(rule => rule.id !== ruleId)`. -/
def removeRule {α : Type} (rules : List (Rule α)) (ruleId : String) : List (Rule α) :=
  rules.filter (fun r => r.id ≠ ruleId)

/-- `RuleEngine.enableRule`: `find` the first rule with the id and set
its `enabled` field in place; rendered purely as replace-first. -/
def enableRule {α : Type} : List (Rule α) → String → List (Rule α)
  | [], _ => []
  | r :: rs, ruleId =>
      if r.id = ruleId then { r with enabled := true } :: rs
      else r :: enableRule rs ruleId

/-- `RuleEngine.disableRule`: `find` the first rule with the id and
clear its `enabled` field in place; rendered purely as replace-first. -/
def disableRule {α : Type} : List (Rule α) → String → List (Rule α)
  | [], _ => []
  | r :: rs, ruleId =>
      if r.id = ruleId then { r with enabled := false } :: rs
      else r :: disableRule rs ruleId

/-- `RuleEngine.getEnabledRules`: `this.rules.filter(rule => rule.enabled)`. -/
def getEnabledRules {α : Type} (rules : List (Rule α)) : List (Rule α) :=
  rules.filter (fun r => r.enabled)

/-- `RuleEngine.getRuleById`: `this.rules.find(rule => rule.id === ruleId)`. -/
def getRuleById {α : Type} (rules : List (Rule α)) (ruleId : String) : Option (Rule α) :=
  rules.find? (fun r => r.id = ruleId)

/-- `RuleEngine.analyzeMigration` (lines 43-61): the two nested loops,
skipping disabled rules, appending the result of every `check` call
that returns normally and dropping (after the `console.warn`
diagnostic) the ones that throw. -/
def analyzeMigration {α : Type} (rules : List (Rule α)) (m : Migration α) : List Violation :=
  m.statements.foldl
    (fun violations statement =>
      rules.foldl
        (fun violations rule =>
          if !rule.enabled then violations
          else
            match rule.check statement m with
            | Except.ok ruleViolations => violations ++ ruleViolations
            | Except.error _ => violations)
        violations)
    []

/-- `RuleEngine.generateLintResult` (lines 63-76). -/
def generateLintResult (violations : List Violation) (totalFiles : Nat) : LintResult :=
  { violations := violations
    totalFiles := totalFiles
    totalViolations := violations.length
    errorCount := (violations.filter (fun v => v.severity = Severity.error)).length
    warningCount := (violations.filter (fun v => v.severity = Severity.warning)).length
    infoCount := (violations.filter (fun v => v.severity = Severity.info)).length }

/-- `RuleEngine.analyzeMigrations` (lines 32-41): concatenate the
per-migration violations in order and aggregate. -/
def analyzeMigrations {α : Type} (rules : List (Rule α)) (migrations : List (Migration α)) : LintResult :=
  generateLintResult
    (migrations.foldl (fun allViolations m => allViolations ++ analyzeMigration rules m) [])
    migrations.length

namespace RefSem

/-!
Reference-semantics model of the rule registry, for the aliasing
behaviour of `getAllRules` / `getEnabledRules` / `getRuleById`:
JavaScript arrays and objects are heap entities, so the registry is an
array reference and rules are object references (numeric ids into the
heap).  `[...this.rules]` allocates a fresh array holding the same
rule references; `find` and `filter` hand out the references
themselves.  Only the fields the registry operations touch (`id`,
`enabled`) are modelled on the rule objects.
-/

/-- A rule object on the heap: the fields read/written through
references by the registry operations. -/
structure RuleObj where
  id : String
  enabled : Bool
deriving DecidableEq, Repr

instance : Inhabited RuleObj := ⟨{ id := "", enabled := false }⟩

/-- The JavaScript heap: arrays of rule references, and rule objects,
each addressed by index. -/
structure Heap where
  arrays : List (List Nat)
  rules : List RuleObj
deriving DecidableEq, Repr

/-- The engine: `this.rules` is a reference to an array on the heap. -/
structure Engine where
  rulesRef : Nat
deriving DecidableEq, Repr

/-- Dereference an array. -/
def readArr (h : Heap) (a : Nat) : List Nat := h.arrays.getD a []

/-- Dereference a rule object. -/
def readRule (h : Heap) (r : Nat) : RuleObj := h.rules.getD r default

/-- Mutate an array in place (what a caller does to a returned array,
e.g. `push`/`splice`). -/
def writeArr (h : Heap) (a : Nat) (l : List Nat) : Heap :=
  { h with arrays := h.arrays.set a l }

/-- Assign `rule.enabled = b` through a rule reference. -/
def setEnabled (h : Heap) (r : Nat) (b : Bool) : Heap :=
  { h with rules := h.rules.set r { h.rules.getD r default with enabled := b } }

/-- `RuleEngine.getAllRules`: `return [...this.rules]` — allocate a
fresh array with the same rule references and return its reference. -/
def getAllRules (h : Heap) (e : Engine) : Heap × Nat :=
  ({ h with arrays := h.arrays ++ [readArr h e.rulesRef] }, h.arrays.length)

/-- `RuleEngine.getEnabledRules`: `this.rules.filter(...)` — allocate a
fresh array holding the references to the enabled rule objects. -/
def getEnabledRules (h : Heap) (e : Engine) : Heap × Nat :=
  ({ h with
      arrays := h.arrays ++ [(readArr h e.rulesRef).filter (fun r => (readRule h r).enabled)] },
   h.arrays.length)

/-- `RuleEngine.getRuleById`: `this.rules.find(...)` — return the first
matching rule reference itself, not a copy. -/
def getRuleById (h : Heap) (e : Engine) (ruleId : String) : Option Nat :=
  (readArr h e.rulesRef).find? (fun r => (readRule h r).id = ruleId)

end RefSem

/-- The C1 test vector. -/
def c1input : String := "CREATE UNIQUE INDEX idx ON t(c);"

/-- The C2 test vector: a header comment line followed by a
`CREATE TABLE`. -/
def c2input : String := "-- header comment\nCREATE TABLE t (id INT);"

/-- The C3 test vector: two statements on the same source line. -/
def c3input : String := "SELECT 1;SELECT 2;"

/-- The C8 test vector `INSERT INTO t VALUES (';');` (single quotes
spelled via `squote`). -/
def c8input : String :=
  "INSERT INTO t VALUES (" ++ squote.toString ++ ";" ++ squote.toString ++ ");"

/-- The violations a single `check` call contributes to
`analyzeMigration`'s output: its result on normal return, nothing when
it throws. -/
def checkedViolations {α : Type} (m : Migration α) (statement : SQLStatement α)
    (rule : Rule α) : List Violation :=
  match rule.check statement m with
  | Except.ok ruleViolations => ruleViolations
  | Except.error _ => []

/-- Modelled from the spec: per-id removal resolved by "first match" —
remove only the first rule in registration order whose id matches
(src has no such function; this renders the spec's words for
comparison with `removeRule`). -/
def removeFirstById {α : Type} : List (Rule α) → String → List (Rule α)
  | [], _ => []
  | r :: rs, ruleId =>
      if r.id = ruleId then rs else r :: removeFirstById rs ruleId

/-- A concrete one-statement migration for witnesses. -/
def sampleStatement : SQLStatement Unit :=
  { type := "DROP_TABLE", content := "DROP TABLE users;", startLine := 1, endLine := 1,
    ast := none }

/-- A concrete migration holding `sampleStatement`. -/
def sampleMigration : Migration Unit :=
  { id := "20240101000000", filename := "migration.sql", content := "DROP TABLE users;",
    statements := [sampleStatement] }

/-- The violation `goodRule` reports. -/
def sampleViolation : Violation :=
  { ruleId := "no-drop-table", ruleName := "No drop table", severity := Severity.error,
    message := "Dropping a table is destructive", line := 1, column := none,
    suggestion := none, autoFix := none, category := RuleCategory.schemaSafety }

/-- A concrete enabled rule that reports `sampleViolation` on
`DROP_TABLE` statements and never throws. -/
def goodRule : Rule Unit :=
  { id := "no-drop-table", name := "No drop table", description := "flags DROP TABLE",
    severity := Severity.error, category := RuleCategory.schemaSafety,
    check := fun st _ =>
      if st.type = "DROP_TABLE" then Except.ok [sampleViolation] else Except.ok [],
    recommendation := none, autoFix := none, enabled := true }

/-- A concrete enabled rule whose `check` always throws. -/
def badRule : Rule Unit :=
  { id := "always-throws", name := "Always throws", description := "raises on every call",
    severity := Severity.warning, category := RuleCategory.bestPractices,
    check := fun _ _ => Except.error "boom",
    recommendation := none, autoFix := none, enabled := true }

/-- A second rule sharing `goodRule`'s id, for duplicate-id tests. -/
def dupRule : Rule Unit :=
  { goodRule with name := "No drop table (duplicate)", enabled := false }

/-- A concrete one-rule heap for the aliasing witness. -/
def sampleHeap : RefSem.Heap :=
  { arrays := [[0]], rules := [{ id := "no-drop-table", enabled := true }] }

/-- The engine whose registry is array 0 of `sampleHeap`. -/
def sampleEngine : RefSem.Engine := { rulesRef := 0 }

lemma strStartsWith_eq_true {s p : String} : strStartsWith s p = true ↔ p.data <+: s.data := by
  simp [strStartsWith]

/-- If `s` starts with `p`, and `q` is neither a prefix of `p` nor an
extension of it, then `s` does not start with `q` (two prefixes of the
same list are always comparable). -/
lemma strStartsWith_false_of {s p q : String} (hp : strStartsWith s p = true)
    (h1 : ¬ p.data <+: q.data) (h2 : ¬ q.data <+: p.data) :
    strStartsWith s q = false := by
  cases hb : strStartsWith s q with
  | false => rfl
  | true =>
      have hq := strStartsWith_eq_true.mp hb
      have hp' := strStartsWith_eq_true.mp hp
      rcases Nat.le_total p.data.length q.data.length with hle | hle
      · exact absurd (List.prefix_of_prefix_length_le hp' hq hle) h1
      · exact absurd (List.prefix_of_prefix_length_le hq hp' hle) h2

/-- C1 counterexample: `"CREATE UNIQUE INDEX idx ON t(c);"` is
classified `CREATE` by `getStatementType`, not `CREATE_INDEX` — the
statement does not literally start with the tested prefix
`CREATE INDEX`, so it falls through to the bare `CREATE` test. -/
theorem classifier_unique_index_counterexample :
    getStatementType c1input = "CREATE" ∧ getStatementType c1input ≠ "CREATE_INDEX" := by
  decide

/-- C1 (amended): the classifier sends `"CREATE UNIQUE INDEX idx ON
t(c);"` to `CREATE` (not `CREATE_INDEX`); the ordered prefix table
does test the multi-word prefixes `CREATE TABLE`, `ALTER TABLE`,
`DROP TABLE`, `CREATE INDEX`, `DROP INDEX` before their single-word
generalizations, first match wins: any statement whose trimmed
upper-cased text starts with one of the multi-word prefixes is
classified with that multi-word type, never with the bare one. -/
theorem classifier_prefix_order_amended :
    (getStatementType c1input = "CREATE") ∧
    (∀ s : String, strStartsWith (jsToUpper (jsTrim s)) "CREATE TABLE" = true →
      getStatementType s = "CREATE_TABLE") ∧
    (∀ s : String, strStartsWith (jsToUpper (jsTrim s)) "ALTER TABLE" = true →
      getStatementType s = "ALTER_TABLE") ∧
    (∀ s : String, strStartsWith (jsToUpper (jsTrim s)) "DROP TABLE" = true →
      getStatementType s = "DROP_TABLE") ∧
    (∀ s : String, strStartsWith (jsToUpper (jsTrim s)) "CREATE INDEX" = true →
      getStatementType s = "CREATE_INDEX") ∧
    (∀ s : String, strStartsWith (jsToUpper (jsTrim s)) "DROP INDEX" = true →
      getStatementType s = "DROP_INDEX") := by
  refine ⟨by decide, ?_, ?_, ?_, ?_, ?_⟩
  · intro s h
    simp [getStatementType, h]
  · intro s h
    have e1 : strStartsWith (jsToUpper (jsTrim s)) "CREATE TABLE" = false :=
      strStartsWith_false_of h (by decide) (by decide)
    simp [getStatementType, h, e1]
  · intro s h
    have e1 : strStartsWith (jsToUpper (jsTrim s)) "CREATE TABLE" = false :=
      strStartsWith_false_of h (by decide) (by decide)
    have e2 : strStartsWith (jsToUpper (jsTrim s)) "ALTER TABLE" = false :=
      strStartsWith_false_of h (by decide) (by decide)
    simp [getStatementType, h, e1, e2]
  · intro s h
    have e1 : strStartsWith (jsToUpper (jsTrim s)) "CREATE TABLE" = false :=
      strStartsWith_false_of h (by decide) (by decide)
    have e2 : strStartsWith (jsToUpper (jsTrim s)) "ALTER TABLE" = false :=
      strStartsWith_false_of h (by decide) (by decide)
    have e3 : strStartsWith (jsToUpper (jsTrim s)) "DROP TABLE" = false :=
      strStartsWith_false_of h (by decide) (by decide)
    simp [getStatementType, h, e1, e2, e3]
  · intro s h
    have e1 : strStartsWith (jsToUpper (jsTrim s)) "CREATE TABLE" = false :=
      strStartsWith_false_of h (by decide) (by decide)
    have e2 : strStartsWith (jsToUpper (jsTrim s)) "ALTER TABLE" = false :=
      strStartsWith_false_of h (by decide) (by decide)
    have e3 : strStartsWith (jsToUpper (jsTrim s)) "DROP TABLE" = false :=
      strStartsWith_false_of h (by decide) (by decide)
    have e4 : strStartsWith (jsToUpper (jsTrim s)) "CREATE INDEX" = false :=
      strStartsWith_false_of h (by decide) (by decide)
    simp [getStatementType, h, e1, e2, e3, e4]

/-- C2 counterexample: on `"-- header comment\nCREATE TABLE t (id
INT);"` the single emitted statement has `startLine = 1`, not `2`:
`parseStatements` strips the leading comment line from `content` but
keeps `startLine` at the span's first line. -/
theorem parser_comment_startline_counterexample :
    (parseStatements (fun _ : String => (none : Option Unit)) c2input).map
        (fun s => s.startLine) = [1]
    ∧ (parseStatements (fun _ : String => (none : Option Unit)) c2input).map
        (fun s => s.startLine) ≠ [2] := by
  constructor
  · decide
  · decide

/-- C2 (amended): `"-- header comment\nCREATE TABLE t (id INT);"`
yields exactly one statement, classified `CREATE_TABLE`, with the
comment-only leading line stripped from `content`, `startLine = 1`
(the original span's start — it is not advanced to the first code
line) and `endLine = 2` (the original span's end), for every grammar
parser oracle. -/
theorem parser_comment_stripping_amended :
    ∀ (α : Type) (parseFn : String → Option α),
      parseStatements parseFn c2input =
        [{ type := "CREATE_TABLE", content := "CREATE TABLE t (id INT);",
           startLine := 1, endLine := 2, ast := parseFn "CREATE TABLE t (id INT);" }] :=
  fun _ _ => rfl

/-- Every statement emitted by the `parseStatements` loop started at
line `ln` or later carries a `startLine` of at least `ln`. -/
lemma parseAux_startLine_ge {α : Type} (parseFn : String → Option α) :
    ∀ (raws : List String) (ln : Nat) (st : SQLStatement α),
      st ∈ parseAux parseFn ln raws → ln ≤ st.startLine := by
  intro raws
  induction raws with
  | nil =>
      intro ln st hst
      simp [parseAux] at hst
  | cons raw rest ih =>
      intro ln st hst
      simp only [parseAux] at hst
      split at hst
      · exact Nat.le_trans (Nat.le_add_right _ _) (ih _ _ hst)
      · split at hst
        · exact Nat.le_trans (Nat.le_add_right _ _) (ih _ _ hst)
        · split at hst
          · exact Nat.le_trans (Nat.le_add_right _ _) (ih _ _ hst)
          · rcases List.mem_cons.mp hst with h | h
            · subst h
              exact Nat.le_refl _
            · exact Nat.le_trans (Nat.le_add_right _ _) (ih _ _ h)

/-- The `startLine`s of the statements emitted by the
`parseStatements` loop are non-decreasing. -/
lemma parseAux_chain {α : Type} (parseFn : String → Option α) :
    ∀ (raws : List String) (ln : Nat),
      List.Chain' (· ≤ ·) ((parseAux parseFn ln raws).map (fun s => s.startLine)) := by
  intro raws
  induction raws with
  | nil =>
      intro ln
      simp [parseAux]
  | cons raw rest ih =>
      intro ln
      simp only [parseAux]
      split
      · exact ih _
      · split
        · exact ih _
        · split
          · exact ih _
          · rw [List.map_cons, List.chain'_cons']
            refine ⟨?_, ih _⟩
            intro y hy
            rw [List.head?_map] at hy
            cases hh : (parseAux parseFn (ln + countNewlines raw) rest).head? with
            | none =>
                rw [hh] at hy
                simp at hy
            | some st =>
                rw [hh] at hy
                simp at hy
                subst hy
                exact Nat.le_trans (Nat.le_add_right _ _)
                  (parseAux_startLine_ge parseFn rest _ st (List.mem_of_mem_head? hh))

/-- C3 counterexample: `"SELECT 1;SELECT 2;"` produces two statements
that share `startLine = 1`, so the `startLine`s are not strictly
increasing. -/
theorem parser_startline_strict_counterexample :
    (parseStatements (fun _ : String => (none : Option Unit)) c3input).map
        (fun s => s.startLine) = [1, 1]
    ∧ ¬ List.Chain' (· < ·)
        ((parseStatements (fun _ : String => (none : Option Unit)) c3input).map
          (fun s => s.startLine)) := by
  constructor
  · decide
  · intro hch
    have hmap : (parseStatements (fun _ : String => (none : Option Unit)) c3input).map
        (fun s => s.startLine) = [1, 1] := by decide
    rw [hmap] at hch
    simp [List.chain'_cons] at hch

/-- C3 (amended): for every input text the emitted statements have
non-decreasing (not strictly increasing) `startLine` values, in order
of appearance; two statements on the same source line share a
`startLine`. -/
theorem parser_startline_monotone_amended (α : Type) (parseFn : String → Option α) (content : String) :
    List.Chain' (· ≤ ·) ((parseStatements parseFn content).map (fun s => s.startLine)) :=
  parseAux_chain parseFn (splitSQLStatements content) 1

/-- C8: a semicolon consumed while the scanner is inside a string
literal (either quote delimiter) or inside a line/block comment is
appended to the current buffer, keeps the scanner in the same state
and closes no span (the span accumulator is untouched); and the
quoted-semicolon test vector segments into exactly one statement. -/
theorem split_no_boundary_inside_string_or_comment :
    (∀ (delim : Char) (prev : Option Char) (current : String) (acc : List String)
        (rest : List Char),
        delim = squote ∨ delim = dquote →
        splitAux (.inString delim) prev current acc (';' :: rest)
          = splitAux (.inString delim) (some ';') (current.push ';') acc rest)
    ∧ (∀ (prev : Option Char) (current : String) (acc : List String) (rest : List Char),
        splitAux .lineComment prev current acc (';' :: rest)
          = splitAux .lineComment (some ';') (current.push ';') acc rest)
    ∧ (∀ (prev : Option Char) (current : String) (acc : List String) (rest : List Char),
        splitAux .blockComment prev current acc (';' :: rest)
          = splitAux .blockComment (some ';') (current.push ';') acc rest)
    ∧ splitSQLStatements c8input = [c8input] := by
  refine ⟨?_, ?_, ?_, by decide⟩
  · intro delim prev current acc rest h
    rcases h with rfl | rfl <;> rfl
  · intro prev current acc rest
    rfl
  · intro prev current acc rest
    rfl

/-- The statement list does not depend on the grammar-parser oracle
except through each statement's `ast` field. -/
lemma parseAux_oracle {α : Type} (parseFn : String → Option α) :
    ∀ (raws : List String) (ln : Nat),
      parseAux parseFn ln raws
        = (parseAux (fun _ => (none : Option α)) ln raws).map
            (fun s => { s with ast := parseFn s.content }) := by
  intro raws
  induction raws with
  | nil =>
      intro ln
      simp [parseAux]
  | cons raw rest ih =>
      intro ln
      simp only [parseAux]
      split
      · exact ih _
      · split
        · exact ih _
        · split
          · exact ih _
          · rw [List.map_cons, ih _]

/-- C9: when the external grammar parser rejects a statement's text
(the oracle returns `none`), `parseStatements` still emits the
statement with the same `type`, `content`, `startLine` and `endLine`
it would have with any other oracle, and the `ast` field is exactly
the oracle's answer on the statement's content (absent on
rejection). -/
theorem parse_failure_ast_absent (α : Type) (parseFn : String → Option α) (content : String) :
    parseStatements parseFn content
      = (parseStatements (fun _ => (none : Option α)) content).map
          (fun s => { s with ast := parseFn s.content })
    ∧ ∀ st ∈ parseStatements parseFn content, st.ast = parseFn st.content := by
  have h1 : parseStatements parseFn content
      = (parseStatements (fun _ => (none : Option α)) content).map
          (fun s => { s with ast := parseFn s.content }) :=
    parseAux_oracle parseFn (splitSQLStatements content) 1
  refine ⟨h1, ?_⟩
  intro st hst
  rw [h1] at hst
  rcases List.mem_map.mp hst with ⟨s0, _, rfl⟩
  rfl

/-- C9 witness: with the identity oracle on `"SELECT 1;"` the emitted
statement's `ast` is the oracle's answer on its content. -/
theorem parse_failure_ast_absent_witness :
    ({ type := "SELECT", content := "SELECT 1;", startLine := 1, endLine := 1,
       ast := some "SELECT 1;" } : SQLStatement String).ast = some "SELECT 1;" :=
  (parse_failure_ast_absent String (fun str => some str) "SELECT 1;").2 _ (by decide)

/-- C8 witness: the in-string step at delimiter `squote` on a lone
semicolon. -/
theorem split_no_boundary_witness :
    splitAux (.inString squote) none "" [] [';']
      = splitAux (.inString squote) (some ';') ("".push ';') [] [] :=
  split_no_boundary_inside_string_or_comment.1 squote none "" [] [] (Or.inl rfl)

/-- A left fold that appends `f x` at each step accumulates the
concatenation of the `f`-images. -/
lemma foldl_append_flatten {β γ : Type} (g : List γ → β → List γ) (f : β → List γ)
    (hg : ∀ a x, g a x = a ++ f x) :
    ∀ (l : List β) (acc : List γ), l.foldl g acc = acc ++ (l.map f).flatten := by
  intro l
  induction l with
  | nil =>
      intro acc
      simp
  | cons x xs ih =>
      intro acc
      rw [List.foldl_cons, hg, List.map_cons, List.flatten_cons, ih, List.append_assoc]

/-- The inner rule loop of `analyzeMigration` appends, in registration
order, exactly the contributions of the enabled rules. -/
lemma analyzeMigration_inner {α : Type} (rules : List (Rule α)) (m : Migration α)
    (statement : SQLStatement α) (acc : List Violation) :
    rules.foldl
        (fun violations rule =>
          if !rule.enabled then violations
          else
            match rule.check statement m with
            | Except.ok ruleViolations => violations ++ ruleViolations
            | Except.error _ => violations)
        acc
      = acc ++ ((rules.filter (fun r => r.enabled)).map (checkedViolations m statement)).flatten := by
  have hg : ∀ (a : List Violation) (rule : Rule α),
      (fun violations rule =>
        if !rule.enabled then violations
        else
          match rule.check statement m with
          | Except.ok ruleViolations => violations ++ ruleViolations
          | Except.error _ => violations) a rule
      = a ++ (if rule.enabled then checkedViolations m statement rule else []) := by
    intro a rule
    cases hr : rule.enabled with
    | false => simp [hr]
    | true =>
        cases hc : rule.check statement m with
        | ok vs => simp [hr, hc, checkedViolations]
        | error e => simp [hr, hc, checkedViolations]
  rw [foldl_append_flatten _ _ hg rules acc]
  congr 1
  induction rules with
  | nil => rfl
  | cons r rs ih =>
      cases hr : r.enabled <;> simp [List.filter_cons, hr, ih]

/-- Normal form of `analyzeMigration`: the concatenation, statement by
statement and then enabled rule by enabled rule in registration order,
of the successful `check` results. -/
lemma analyzeMigration_eq_flatten {α : Type} (rules : List (Rule α)) (m : Migration α) :
    analyzeMigration rules m
      = (m.statements.map (fun statement =>
          ((rules.filter (fun r => r.enabled)).map (checkedViolations m statement)).flatten)).flatten := by
  have h := foldl_append_flatten
    (fun violations statement =>
      rules.foldl
        (fun violations rule =>
          if !rule.enabled then violations
          else
            match rule.check statement m with
            | Except.ok ruleViolations => violations ++ ruleViolations
            | Except.error _ => violations)
        violations)
    (fun statement =>
      ((rules.filter (fun r => r.enabled)).map (checkedViolations m statement)).flatten)
    (fun acc statement => analyzeMigration_inner rules m statement acc)
    m.statements []
  simpa [analyzeMigration] using h

/-- C5: `analyzeMigration` consults only the enabled rules, in
registration order, statement by statement in migration order, and
returns exactly the concatenation (statement order first, then rule
registration order) of the successful `check` results — a throwing
`check` contributes the empty list. -/
theorem engine_order_and_concatenation (α : Type) (rules : List (Rule α)) (m : Migration α) :
    analyzeMigration rules m
      = (m.statements.map (fun statement =>
          ((rules.filter (fun r => r.enabled)).map (checkedViolations m statement)).flatten)).flatten :=
  analyzeMigration_eq_flatten rules m

/-- C4: a rule whose `check` throws on every statement of the
migration contributes nothing and does not disturb any other rule's
contribution: the scan result equals that of the registry without the
throwing rule. -/
theorem rule_failure_isolation (α : Type) (rs1 rs2 : List (Rule α)) (r : Rule α)
    (m : Migration α)
    (hfail : ∀ st ∈ m.statements, ∃ e, r.check st m = Except.error e) :
    analyzeMigration (rs1 ++ r :: rs2) m = analyzeMigration (rs1 ++ rs2) m := by
  rw [analyzeMigration_eq_flatten, analyzeMigration_eq_flatten]
  refine congrArg List.flatten (List.map_congr_left ?_)
  intro st hst
  rcases hfail st hst with ⟨e, he⟩
  cases hr : r.enabled with
  | false =>
      simp [List.filter_append, List.filter_cons, hr]
  | true =>
      simp [List.filter_append, List.filter_cons, hr, checkedViolations, he]

/-- C4 witness: adding the always-throwing rule after `goodRule`
leaves the scan of the sample migration unchanged. -/
theorem rule_failure_isolation_witness :
    analyzeMigration ([goodRule] ++ badRule :: []) sampleMigration
      = analyzeMigration ([goodRule] ++ []) sampleMigration :=
  rule_failure_isolation Unit [goodRule] [] badRule sampleMigration
    (fun _ _ => ⟨"boom", rfl⟩)

/-- Partitioning a violation list by the three severities accounts for
every element exactly once. -/
lemma severity_filter_sum (violations : List Violation) :
    (violations.filter (fun v => v.severity = Severity.error)).length
      + (violations.filter (fun v => v.severity = Severity.warning)).length
      + (violations.filter (fun v => v.severity = Severity.info)).length
    = violations.length := by
  induction violations with
  | nil => rfl
  | cons v vs ih =>
      cases hv : v.severity <;> simp [List.filter_cons, hv] <;> omega

/-- C6: every `LintResult` produced by `analyzeMigrations` satisfies
`errorCount + warningCount + infoCount = totalViolations =
length of violations` (every severity is one of the three enumeration
values by construction of `Severity`). -/
theorem lint_result_counts (α : Type) (rules : List (Rule α)) (migrations : List (Migration α)) :
    (analyzeMigrations rules migrations).errorCount
        + (analyzeMigrations rules migrations).warningCount
        + (analyzeMigrations rules migrations).infoCount
      = (analyzeMigrations rules migrations).totalViolations
    ∧ (analyzeMigrations rules migrations).totalViolations
      = (analyzeMigrations rules migrations).violations.length := by
  exact ⟨severity_filter_sum _, rfl⟩

/-- C1 witness: a statement literally starting with `CREATE INDEX` is
classified `CREATE_INDEX`. -/
theorem classifier_prefix_order_amended_witness :
    getStatementType "CREATE INDEX i ON t(c);" = "CREATE_INDEX" :=
  classifier_prefix_order_amended.2.2.2.2.1 "CREATE INDEX i ON t(c);" (by decide)

lemma removeRule_no_op {α : Type} (rules : List (Rule α)) (ruleId : String)
    (h : ∀ r ∈ rules, r.id ≠ ruleId) : removeRule rules ruleId = rules :=
  List.filter_eq_self.mpr (fun r hr => by simpa using h r hr)

lemma enableRule_no_op {α : Type} :
    ∀ (rules : List (Rule α)) (ruleId : String), (∀ r ∈ rules, r.id ≠ ruleId) →
      enableRule rules ruleId = rules := by
  intro rules ruleId
  induction rules with
  | nil =>
      intro _
      rfl
  | cons r rs ih =>
      intro h
      have hr : r.id ≠ ruleId := h r (List.mem_cons_self r rs)
      simp only [enableRule, if_neg hr]
      rw [ih (fun r0 h0 => h r0 (List.mem_cons_of_mem r h0))]

lemma disableRule_no_op {α : Type} :
    ∀ (rules : List (Rule α)) (ruleId : String), (∀ r ∈ rules, r.id ≠ ruleId) →
      disableRule rules ruleId = rules := by
  intro rules ruleId
  induction rules with
  | nil =>
      intro _
      rfl
  | cons r rs ih =>
      intro h
      have hr : r.id ≠ ruleId := h r (List.mem_cons_self r rs)
      simp only [disableRule, if_neg hr]
      rw [ih (fun r0 h0 => h r0 (List.mem_cons_of_mem r h0))]

lemma enableRule_first {α : Type} (r : Rule α) (ruleId : String) (hr : r.id = ruleId) :
    ∀ (rs1 rs2 : List (Rule α)), (∀ r0 ∈ rs1, r0.id ≠ ruleId) →
      enableRule (rs1 ++ r :: rs2) ruleId = rs1 ++ { r with enabled := true } :: rs2 := by
  intro rs1
  induction rs1 with
  | nil =>
      intro rs2 _
      simp only [List.nil_append, enableRule, if_pos hr]
  | cons x xs ih =>
      intro rs2 h
      have hx : x.id ≠ ruleId := h x (List.mem_cons_self x xs)
      simp only [List.cons_append, enableRule, if_neg hx]
      exact congrArg (List.cons x) (ih rs2 (fun r0 h0 => h r0 (List.mem_cons_of_mem x h0)))

lemma disableRule_first {α : Type} (r : Rule α) (ruleId : String) (hr : r.id = ruleId) :
    ∀ (rs1 rs2 : List (Rule α)), (∀ r0 ∈ rs1, r0.id ≠ ruleId) →
      disableRule (rs1 ++ r :: rs2) ruleId = rs1 ++ { r with enabled := false } :: rs2 := by
  intro rs1
  induction rs1 with
  | nil =>
      intro rs2 _
      simp only [List.nil_append, disableRule, if_pos hr]
  | cons x xs ih =>
      intro rs2 h
      have hx : x.id ≠ ruleId := h x (List.mem_cons_self x xs)
      simp only [List.cons_append, disableRule, if_neg hx]
      exact congrArg (List.cons x) (ih rs2 (fun r0 h0 => h r0 (List.mem_cons_of_mem x h0)))

lemma getRuleById_first {α : Type} (r : Rule α) (ruleId : String) (hr : r.id = ruleId) :
    ∀ (rs1 rs2 : List (Rule α)), (∀ r0 ∈ rs1, r0.id ≠ ruleId) →
      getRuleById (rs1 ++ r :: rs2) ruleId = some r := by
  intro rs1
  induction rs1 with
  | nil =>
      intro rs2 _
      simp [getRuleById, hr]
  | cons x xs ih =>
      intro rs2 h
      have hx : x.id ≠ ruleId := h x (List.mem_cons_self x xs)
      simp only [getRuleById, List.cons_append]
      rw [List.find?_cons_of_neg _ (by simpa using hx)]
      exact ih rs2 (fun r0 h0 => h r0 (List.mem_cons_of_mem x h0))

/-- C7 counterexample: on a registry with two rules sharing an id,
`removeRule` removes both — it does not act on the first match only,
as first-match removal would leave one rule. -/
theorem remove_rule_first_match_counterexample :
    (removeRule [goodRule, dupRule] "no-drop-table").length = 0
    ∧ (removeFirstById [goodRule, dupRule] "no-drop-table").length = 1
    ∧ removeRule [goodRule, dupRule] "no-drop-table"
        ≠ removeFirstById [goodRule, dupRule] "no-drop-table" := by
  refine ⟨rfl, rfl, ?_⟩
  intro h
  exact absurd (congrArg List.length h) (by decide)

/-- C7 (amended): `removeRule`, `enableRule`, `disableRule` and
`getRuleById` never raise (they are total functions) and are no-ops
when no rule carries the id; with duplicate ids, lookup, enable and
disable act on the first matching rule in registration order only,
while `removeRule` removes every rule whose id matches. -/
theorem per_id_operations_amended (α : Type) :
    (∀ (rules : List (Rule α)) (ruleId : String), (∀ r ∈ rules, r.id ≠ ruleId) →
        removeRule rules ruleId = rules
        ∧ enableRule rules ruleId = rules
        ∧ disableRule rules ruleId = rules
        ∧ getRuleById rules ruleId = none)
    ∧ (∀ (rs1 rs2 : List (Rule α)) (r : Rule α) (ruleId : String),
        r.id = ruleId → (∀ r0 ∈ rs1, r0.id ≠ ruleId) →
        getRuleById (rs1 ++ r :: rs2) ruleId = some r
        ∧ enableRule (rs1 ++ r :: rs2) ruleId = rs1 ++ { r with enabled := true } :: rs2
        ∧ disableRule (rs1 ++ r :: rs2) ruleId = rs1 ++ { r with enabled := false } :: rs2)
    ∧ (∀ (rules : List (Rule α)) (ruleId : String) (r : Rule α),
        r ∈ removeRule rules ruleId → r.id ≠ ruleId)
    ∧ (∀ (rules : List (Rule α)) (ruleId : String) (r : Rule α),
        r ∈ rules → r.id ≠ ruleId → r ∈ removeRule rules ruleId) := by
  refine ⟨?_, ?_, ?_, ?_⟩
  · intro rules ruleId h
    exact ⟨removeRule_no_op rules ruleId h, enableRule_no_op rules ruleId h,
      disableRule_no_op rules ruleId h,
      List.find?_eq_none.mpr (fun r hr => by simpa using h r hr)⟩
  · intro rs1 rs2 r ruleId hr h
    exact ⟨getRuleById_first r ruleId hr rs1 rs2 h,
      enableRule_first r ruleId hr rs1 rs2 h,
      disableRule_first r ruleId hr rs1 rs2 h⟩
  · intro rules ruleId r h
    have := (List.mem_filter.mp h).2
    simpa using this
  · intro rules ruleId r h1 h2
    exact List.mem_filter.mpr ⟨h1, by simpa using h2⟩

/-- C7 witness: the no-op clause on a missing id, and the first-match
clause on a registry containing `goodRule` followed by its
duplicate. -/
theorem per_id_operations_amended_witness :
    (removeRule [goodRule] "missing-id" = [goodRule]
      ∧ enableRule [goodRule] "missing-id" = [goodRule]
      ∧ disableRule [goodRule] "missing-id" = [goodRule]
      ∧ getRuleById [goodRule] "missing-id" = none)
    ∧ (getRuleById ([] ++ goodRule :: [dupRule]) "no-drop-table" = some goodRule
      ∧ enableRule ([] ++ goodRule :: [dupRule]) "no-drop-table"
          = [] ++ { goodRule with enabled := true } :: [dupRule]
      ∧ disableRule ([] ++ goodRule :: [dupRule]) "no-drop-table"
          = [] ++ { goodRule with enabled := false } :: [dupRule]) :=
  ⟨(per_id_operations_amended Unit).1 [goodRule] "missing-id" (by decide),
   (per_id_operations_amended Unit).2.1 [] [dupRule] goodRule "no-drop-table" rfl
     (by intro r0 h0; exact absurd h0 (List.not_mem_nil r0))⟩

/-- C10: `getAllRules` returns a fresh array — its reference differs
from the registry's, and mutating it leaves the registry array
unchanged — while `getRuleById` and `getEnabledRules` hand out
references to the live rule objects: the registry still holds a
returned reference, so assigning `enabled` through it is visible to
every subsequent read through the registry (hence to subsequent
scans). -/
theorem registry_aliasing :
    (∀ (h : RefSem.Heap) (e : RefSem.Engine) (l : List Nat),
        e.rulesRef < h.arrays.length →
        (RefSem.getAllRules h e).2 ≠ e.rulesRef
        ∧ RefSem.readArr
            (RefSem.writeArr (RefSem.getAllRules h e).1 (RefSem.getAllRules h e).2 l)
            e.rulesRef
          = RefSem.readArr h e.rulesRef)
    ∧ (∀ (h : RefSem.Heap) (e : RefSem.Engine) (ruleId : String) (r : Nat) (b : Bool),
        RefSem.getRuleById h e ruleId = some r →
        r < h.rules.length →
        r ∈ RefSem.readArr (RefSem.setEnabled h r b) e.rulesRef
        ∧ (RefSem.readRule (RefSem.setEnabled h r b) r).enabled = b)
    ∧ (∀ (h : RefSem.Heap) (e : RefSem.Engine) (r : Nat),
        r ∈ RefSem.readArr (RefSem.getEnabledRules h e).1 (RefSem.getEnabledRules h e).2 →
        r ∈ RefSem.readArr h e.rulesRef) := by
  refine ⟨?_, ?_, ?_⟩
  · intro h e l hlt
    refine ⟨(Nat.ne_of_lt hlt).symm, ?_⟩
    simp only [RefSem.readArr, RefSem.writeArr, RefSem.getAllRules]
    rw [List.getD_eq_getElem?_getD, List.getD_eq_getElem?_getD,
      List.getElem?_set_ne (Nat.ne_of_lt hlt).symm, List.getElem?_append_left hlt]
  · intro h e ruleId r b hfind hlen
    refine ⟨List.mem_of_find?_eq_some hfind, ?_⟩
    simp only [RefSem.readRule, RefSem.setEnabled]
    rw [List.getD_eq_getElem?_getD, List.getElem?_set_self hlen]
    rfl
  · intro h e r hmem
    simp only [RefSem.readArr, RefSem.getEnabledRules] at hmem
    rw [List.getD_eq_getElem?_getD, List.getElem?_concat_length] at hmem
    simp only [Option.getD_some] at hmem
    exact (List.mem_filter.mp hmem).1

/-- C10 witness: the three aliasing clauses at the concrete one-rule
heap. -/
theorem registry_aliasing_witness :
    ((RefSem.getAllRules sampleHeap sampleEngine).2 ≠ sampleEngine.rulesRef
      ∧ RefSem.readArr
          (RefSem.writeArr (RefSem.getAllRules sampleHeap sampleEngine).1
            (RefSem.getAllRules sampleHeap sampleEngine).2 [0, 0])
          sampleEngine.rulesRef
        = RefSem.readArr sampleHeap sampleEngine.rulesRef)
    ∧ (0 ∈ RefSem.readArr (RefSem.setEnabled sampleHeap 0 false) sampleEngine.rulesRef
      ∧ (RefSem.readRule (RefSem.setEnabled sampleHeap 0 false) 0).enabled = false)
    ∧ 0 ∈ RefSem.readArr sampleHeap sampleEngine.rulesRef :=
  ⟨registry_aliasing.1 sampleHeap sampleEngine [0, 0] (by decide),
   registry_aliasing.2.1 sampleHeap sampleEngine "no-drop-table" 0 false (by decide) (by decide),
   registry_aliasing.2.2 sampleHeap sampleEngine 0 (by decide)⟩

end PSM
